import Mathlib

unseal Rat.add Rat.mul Rat.inv Rat.sub Rat.ofScientific

/-!
Verification development for the comick-uploader program (src/uploader.py).

The Python source is shallowly embedded below:
- pure helpers (`natural_sort_key`, the chapter-name regex, `find_chapters`)
  become Lean functions over `List Char` / `String`;
- Python floats are modelled as exact rationals (the decimal literals in the
  source, 0.1 / 0.8 / 0.95, and the decimal numerals parsed by
  `natural_sort_key` are all exactly representable, so for the inputs
  considered here the rational model agrees with IEEE evaluation order-wise);
- the effectful per-chapter retry loop `upload_chapter` is embedded as a
  deterministic function of an "attempt script" describing, per attempt, the
  outcome of the presign call, of each page upload, and of the finalize call;
  UI updates and sleeps are recorded as an explicit event trace;
- the tail of `main` (outcome partitioning and the failed.txt artifact)
  becomes a pure summary function of the collected per-chapter results.
-/

namespace Comick

/-! ### Small string utilities (Python semantics) -/

/-- Membership of `needle` at the head of `hay` (character lists). -/
def headMatch : List Char → List Char → Bool
  | [], _ => true
  | _ :: _, [] => false
  | a :: as, b :: bs => a == b && headMatch as bs

/-- Python `needle in hay` substring containment over character lists. -/
def subMatch (needle : List Char) : List Char → Bool
  | [] => headMatch needle []
  | c :: rest => headMatch needle (c :: rest) || subMatch needle rest

/-- Python `needle in hay` for strings. -/
def strContains (hay needle : String) : Bool :=
  subMatch needle.toList hay.toList

/-- Python `str.lower()` (ASCII case folding suffices for the inputs here). -/
def lowerStr (s : String) : String :=
  String.mk (s.toList.map Char.toLower)

/-- Characters accepted by Python `\s` and by `str.strip()`. -/
def isPySpace (c : Char) : Bool :=
  c == ' ' || c == '\t' || c == '\n' || c == '\r' || c == '\x0b' || c == '\x0c'

/-- Python `str.strip()`. -/
def stripStr (s : String) : String :=
  String.mk (((s.toList.dropWhile isPySpace).reverse.dropWhile isPySpace).reverse)

/-! ### natural_sort_key (src/uploader.py line 94)

`def natural_sort_key(s)` returns, for each span of the alternating split of
`str(s)` along the pattern (-?\d+(?:\.\d+)?), the float value of a numeric
span and the lowercased text otherwise

`re.split` with one capture group yields an alternating list
non-match, match, non-match, ..., non-match (empty spans included).  A split
token is numeric exactly when it was a captured span, so the produced key
alternates lowercased text spans and numeric values. -/

/-- Value of a digit character. -/
def digitVal (c : Char) : Nat := c.toNat - '0'.toNat

/-- Decimal value of a digit run. -/
def digitsToNat (ds : List Char) : Nat :=
  ds.foldl (fun a c => 10 * a + digitVal c) 0

/-- Python `float(text)` on a nonnegative span `\d+(\.\d+)?`, as an exact
rational. -/
def ratOfRunPos (cs : List Char) : ℚ :=
  let ip := cs.takeWhile Char.isDigit
  let rest := cs.dropWhile Char.isDigit
  match rest with
  | '.' :: fr => (digitsToNat ip : ℚ) + (digitsToNat fr : ℚ) / ((10 : ℚ) ^ fr.length)
  | _ => (digitsToNat ip : ℚ)

/-- Python `float(text)` on a span `-?\d+(\.\d+)?`, as an exact rational. -/
def ratOfRun (cs : List Char) : ℚ :=
  match cs with
  | '-' :: rest => -(ratOfRunPos rest)
  | _ => ratOfRunPos cs

/-- Greedy match of `\d+(\.\d+)?` at the head of the input; returns the
matched span and the remainder. -/
def numSpanAux : List Char → Option (List Char × List Char)
  | c :: cs =>
    if c.isDigit then
      let ip := (c :: cs).takeWhile Char.isDigit
      let r1 := (c :: cs).dropWhile Char.isDigit
      match r1 with
      | '.' :: d :: r2 =>
        if d.isDigit then
          let fr := (d :: r2).takeWhile Char.isDigit
          let r3 := (d :: r2).dropWhile Char.isDigit
          some (ip ++ '.' :: fr, r3)
        else some (ip, r1)
      | _ => some (ip, r1)
    else none
  | [] => none

/-- Greedy match of `-?\d+(\.\d+)?` at the head of the input, as used by the
split pattern of `natural_sort_key`. -/
def numSpan : List Char → Option (List Char × List Char)
  | '-' :: cs =>
    match numSpanAux cs with
    | some (sp, r) => some ('-' :: sp, r)
    | none => none
  | cs => numSpanAux cs

/-- One element of a natural-sort key: a lowercased text span or the numeric
value of a captured digit run. -/
inductive Tok where
  | txt : List Char → Tok
  | num : ℚ → Tok
deriving DecidableEq, Repr

/-- One step of the scanning loop of the `re.split` call of
`natural_sort_key`, combined with the per-token conversion of `natural_sort_key`: `acc` is the
pending text span (reversed), and `rec` continues the scan on the remainder. -/
def splitRunsStep (rec : List Char → List Char → List Tok)
    (acc : List Char) (cs : List Char) : List Tok :=
  match numSpan cs with
  | some (sp, rest) =>
    Tok.txt (acc.reverse.map Char.toLower) :: Tok.num (ratOfRun sp) :: rec [] rest
  | none =>
    match cs with
    | [] => [Tok.txt (acc.reverse.map Char.toLower)]
    | c :: rest => rec (c :: acc) rest

/-- The scanning loop itself.  `fuel` bounds the recursion; each step consumes
at least one input character, so `cs.length + 1` is always sufficient. -/
def splitRuns : Nat → List Char → List Char → List Tok
  | 0, acc, _ => [Tok.txt (acc.reverse.map Char.toLower)]
  | fuel + 1, acc, cs => splitRunsStep (splitRuns fuel) acc cs

/-- Embedding of `natural_sort_key` from src/uploader.py line 94. -/
def natural_sort_key (s : String) : List Tok :=
  splitRuns (s.toList.length + 1) [] s.toList

/-- Code-point comparison of character lists (Python string comparison). -/
def cmpChars : List Char → List Char → Ordering
  | [], [] => Ordering.eq
  | [], _ :: _ => Ordering.lt
  | _ :: _, [] => Ordering.gt
  | a :: as, b :: bs =>
    match compare a b with
    | Ordering.eq => cmpChars as bs
    | o => o

/-- Rational comparison. -/
def cmpRat (a b : ℚ) : Ordering :=
  if a < b then Ordering.lt else if b < a then Ordering.gt else Ordering.eq

/-- Comparison of key elements.  Python would raise on a text/number
comparison; since every key alternates text and numeric tokens starting with a
text token, aligned positions always agree in kind and the mixed cases below
are never exercised. -/
def cmpTok : Tok → Tok → Ordering
  | Tok.txt a, Tok.txt b => cmpChars a b
  | Tok.num a, Tok.num b => cmpRat a b
  | Tok.txt _, Tok.num _ => Ordering.lt
  | Tok.num _, Tok.txt _ => Ordering.gt

/-- Lexicographic comparison of keys (Python list comparison). -/
def cmpKey : List Tok → List Tok → Ordering
  | [], [] => Ordering.eq
  | [], _ :: _ => Ordering.lt
  | _ :: _, [] => Ordering.gt
  | a :: as, b :: bs =>
    match cmpTok a b with
    | Ordering.eq => cmpKey as bs
    | o => o

/-- Not-greater test on natural-sort keys. -/
def keyLe (a b : String) : Bool :=
  match cmpKey (natural_sort_key a) (natural_sort_key b) with
  | Ordering.gt => false
  | _ => true

/-- Stable insertion into a sorted list. -/
def sortedInsert (le : α → α → Bool) (x : α) : List α → List α
  | [] => [x]
  | y :: ys => if le x y then x :: y :: ys else y :: sortedInsert le x ys

/-- Stable sort (Python `sorted` is a stable sort; for the total preorder
induced by a key function the stable sorted output is unique, so insertion
sort produces the same list). -/
def sortBy (le : α → α → Bool) : List α → List α
  | [] => []
  | x :: xs => sortedInsert le x (sortBy le xs)

/-- Embedding of `sorted(xs, key=natural_sort_key)`. -/
def sortNaturally (xs : List String) : List String :=
  sortBy keyLe xs

/-! ### Chapter-name pattern and find_chapters (src/uploader.py 123-135) -/

/-- Anchored match of `^\d+(\.\d+)?(\s*-\s*(.+))?$` against a name; returns
`some g3` on a match, where `g3` is the optional third capture (the title
text).  Greedy matching of the numeric head agrees with the regex here: if
the optional separator group fails, no backtracking into the head can make it
succeed, because the separator must begin with whitespace or a dash.  The `$`
before-final-newline and dot-excludes-newline subtleties are not modelled
(no claim involves names containing newlines). -/
def matchChapterPattern (s : String) : Option (Option String) :=
  match numSpanAux s.toList with
  | none => none
  | some (_, rest) =>
    match rest with
    | [] => some none
    | _ =>
      match rest.dropWhile isPySpace with
      | '-' :: r2 =>
        let t := r2.dropWhile isPySpace
        match t with
        | _ :: _ => some (some (String.mk t))
        | [] =>
          match r2.getLast? with
          | some c => some (some (String.mk [c]))
          | none => none
      | _ => none

/-- Prefix of a character list before the first occurrence of the separator
`" - "`; the whole list when the separator does not occur.  This is
the Python split-head of the name at the separator. -/
def beforeSepChars : List Char → List Char
  | ' ' :: '-' :: ' ' :: _ => []
  | c :: rest => c :: beforeSepChars rest
  | [] => []

/-- The Python split-head, taking what precedes the first separator. -/
def beforeSep (s : String) : String :=
  String.mk (beforeSepChars s.toList)

/-- The numeric head `\d+(\.\d+)?` of a name (empty if the name does not start
with a digit).  Used to state what the spec calls the parsed chapter number. -/
def numericHead (s : String) : String :=
  String.mk (((numSpanAux s.toList).map Prod.fst).getD [])

/-- Chapter number and title extraction of `find_chapters`:
`chapter_number` is the split-head of `match.group(0)` at the separator (the
full match is the whole name, since the pattern is anchored) and
`title = match.group(3).strip() if match.group(3) else None`. -/
def parseChapterName (s : String) : Option (String × Option String) :=
  match matchChapterPattern s with
  | none => none
  | some g3 =>
    some (beforeSep s, match g3 with
      | some t => some (stripStr t)
      | none => none)

/-- Supported page-file extensions (src/uploader.py line 36). -/
def SUPPORTED_EXTENSIONS : List String :=
  [".jpeg", ".jpg", ".png", ".gif", ".webp", ".bmp", ".tiff", ".heic"]

/-- Python `pathlib.Path(name).suffix`: the part of the final component from
its last dot, provided that dot is neither the first nor the last character. -/
def pathSuffix (name : String) : String :=
  let rev := name.toList.reverse
  let ext := rev.takeWhile (fun c => c != '.')
  match rev.dropWhile (fun c => c != '.') with
  | '.' :: pre =>
    match pre, ext with
    | _ :: _, _ :: _ => String.mk ('.' :: ext.reverse)
    | _, _ => ""
  | _ => ""

/-- The extension filter `f.suffix.lower() in SUPPORTED_EXTENSIONS`. -/
def isSupportedImage (name : String) : Bool :=
  SUPPORTED_EXTENSIONS.contains (lowerStr (pathSuffix name))

/-- A directory entry inside a chapter folder, as seen by `iterdir`. -/
structure FsFile where
  name : String
  isFile : Bool
deriving DecidableEq, Repr

/-- A directory entry of the scanned root, as seen by `os.listdir` plus the
`is_dir` test and (for directories) the contained entries. -/
structure FsEntry where
  name : String
  isDir : Bool
  files : List FsFile
deriving DecidableEq, Repr

/-- Chapter record produced by `find_chapters`. -/
structure Chapter where
  number : String
  title : Option String
  image_paths : List String
deriving DecidableEq, Repr

/-- Embedding of `find_chapters` (src/uploader.py 123-135).  The filesystem is abstracted
as the `is_dir` answer for the root plus the listed entries.  Returns `none`
for the two fatal cases (root not a directory, no valid chapters) and
otherwise the chapter association list in insertion order together with the
names warned about (qualifying folders with zero supported images). -/
def find_chapters (rootIsDir : Bool) (entries : List FsEntry) :
    Option (List (String × Chapter) × List String) :=
  if !rootIsDir then none
  else
    let sortedEntries := sortBy (fun a b => keyLe a.name b.name) entries
    let scan := sortedEntries.foldl
      (fun (acc : List (String × Chapter) × List String) e =>
        match parseChapterName e.name, e.isDir with
        | some (number, title), true =>
          let images :=
            (sortBy (fun a b => keyLe a.name b.name)
              (e.files.filter (fun f => f.isFile && isSupportedImage f.name))).map
              (fun f => f.name)
          match images with
          | [] => (acc.1, acc.2 ++ [e.name])
          | _ :: _ => (acc.1 ++ [(e.name, ⟨number, title, images⟩)], acc.2)
        | _, _ => acc)
      ([], [])
    match scan.1 with
    | [] => none
    | _ :: _ => some scan

/-! ### upload_chapter (src/uploader.py 195-253)

The loop `for attempt in range(MAX_RETRIES)` is embedded with the external
world abstracted as an attempt script: for each attempt index, the outcome of
the presign POST, the per-page results of `upload_image_to_s3` (each page
either calls the progress callback and returns `(True, "")`, or swallows its
exception and returns `(False, str(e))`), and the outcome of the finalize
POST.  Status/progress updates sent to the `UIRenderer` and the retry sleeps
are recorded as an event trace.  Successful page callbacks fire under a lock,
so the emitted progress values are `0.1 + (k/num_images)*0.8` for
`k = 1, ..., S` in increasing order, independently of thread interleaving. -/

/-- Retry-loop bound (src/uploader.py line 37). -/
def MAX_RETRIES : Nat := 3

/-- Inter-attempt delay in seconds (src/uploader.py line 37). -/
def RETRY_DELAY : Nat := 10

/-- The `RETRYABLE_STATUSES` list (src/uploader.py line 38). -/
def RETRYABLE_STATUSES : List Nat := [500, 502, 503, 504, 524]

/-- The duplicate-chapter marker tested against the error body. -/
def dupMsg : String := "Chapter already exists"

/-- Outcome of one `upload_image_to_s3` call: the returned pair. -/
structure PageResult where
  ok : Bool
  err : String
deriving DecidableEq, Repr

/-- Failure of an HTTP call in the attempt body: either an
`requests.exceptions.HTTPError` raised by `raise_for_status` (carrying the
response status, reason, and the JSON body message if the body parsed), or
any other exception (transport errors etc.), carrying its string form. -/
inductive CallFailure where
  | httpErr (status : Nat) (reason : String) (jsonMessage : Option String)
  | exc (msg : String)
deriving DecidableEq, Repr

/-- External behaviour of one attempt.  `presign`/`finalize` are `none` on
success. -/
structure AttemptWorld where
  presign : Option CallFailure
  pages : List PageResult
  finalize : Option CallFailure
deriving DecidableEq, Repr

/-- Terminal dictionary returned by `upload_chapter`, with Python
`dict.get` defaults (`skipped` absent = `false`, no error = `""`). -/
structure ChapResult where
  key : String
  success : Bool
  skipped : Bool
  error : String
deriving DecidableEq, Repr

/-- Observable side effects of the loop: a `UIRenderer.update_chapter_status`
call (status text, progress fraction) or a `time.sleep`. -/
inductive Ev where
  | upd : String → ℚ → Ev
  | sleep : Nat → Ev
deriving DecidableEq, Repr

/-- Progress values of a trace, in emission order. -/
def progVals (evs : List Ev) : List ℚ :=
  evs.filterMap (fun e => match e with
    | Ev.upd _ p => some p
    | Ev.sleep _ => none)

/-- Sleep-event test. -/
def isSleepEv : Ev → Bool
  | Ev.sleep _ => true
  | Ev.upd _ _ => false

/-- Number of sleeps in a trace. -/
def sleepCount (evs : List Ev) : Nat :=
  (evs.filter isSleepEv).length

/-- The update value `0.1 + (successful_uploads / num_images) * 0.8` (src/uploader.py 208). -/
def progressAfter (n s : Nat) : ℚ :=
  (0.1 : ℚ) + ((s : ℚ) / (n : ℚ)) * (0.8 : ℚ)

/-- Updates emitted by the first `S` successful progress callbacks of an
attempt with `n` pages (src/uploader.py 205-209). -/
def pageProgressUpdates (pre : String) (n : Nat) : Nat → List Ev
  | 0 => []
  | s + 1 =>
    pageProgressUpdates pre n s ++
      [Ev.upd (pre ++ "Uploading (" ++ toString (s + 1) ++ "/" ++ toString n ++ ")")
        (progressAfter n (s + 1))]

/-- The `except` clauses of the attempt body (src/uploader.py 230-251):
duplicate-chapter detection, the retryable-status retry, the terminal HTTP
error, and the generic exception handler.  Returns the terminal result
(`none` = `continue` to the next attempt) and the emitted events. -/
def handleFailure (key : String) (attempt : Nat) : CallFailure → Option ChapResult × List Ev
  | CallFailure.httpErr st reason jmsg =>
    if strContains (jmsg.getD "") dupMsg then
      (some ⟨key, true, true, ""⟩, [])
    else if RETRYABLE_STATUSES.contains st && attempt < MAX_RETRIES - 1 then
      (none, [Ev.upd ("Server Error (" ++ toString st ++ ")... Retrying") 0,
              Ev.sleep RETRY_DELAY])
    else
      (some ⟨key, false, false, toString st ++ " " ++ reason⟩, [])
  | CallFailure.exc m =>
    if attempt < MAX_RETRIES - 1 then
      (none, [Ev.upd "Network Error... Retrying" 0, Ev.sleep RETRY_DELAY])
    else
      (some ⟨key, false, false, m.take 40⟩, [])

/-- Embedding of the first-failure selection
`next((res[1] for res in results if not res[0]), "Page upload failed")`
of src/uploader.py 216. -/
def firstPageError (ps : List PageResult) : String :=
  (((ps.find? (fun p => !p.ok)).map PageResult.err).getD "Page upload failed")

/-- One iteration of the retry loop (src/uploader.py 197-251): the whole
`try` body plus its `except` clauses for a given attempt index.  Returns
`none` when the iteration ends in `continue`. -/
def attemptStep (key : String) (n : Nat) (attempt : Nat) (w : AttemptWorld) :
    Option ChapResult × List Ev :=
  let pre := if attempt > 0 then
      "Retrying (" ++ toString (attempt + 1) ++ "/" ++ toString MAX_RETRIES ++ ")... "
    else ""
  let ev0 : List Ev := [Ev.upd (pre ++ "Requesting URLs...") 0]
  match w.presign with
  | some f =>
    ((handleFailure key attempt f).1, ev0 ++ (handleFailure key attempt f).2)
  | none =>
    let pageEvs := pageProgressUpdates pre n ((w.pages.filter PageResult.ok).length)
    if w.pages.all PageResult.ok then
      match w.finalize with
      | none =>
        (some ⟨key, true, false, ""⟩,
         ev0 ++ pageEvs ++ [Ev.upd (pre ++ "Finalizing...") (0.95 : ℚ)])
      | some f =>
        ((handleFailure key attempt f).1,
         ev0 ++ pageEvs ++ [Ev.upd (pre ++ "Finalizing...") (0.95 : ℚ)] ++
           (handleFailure key attempt f).2)
    else
      (some ⟨key, false, false, firstPageError w.pages⟩, ev0 ++ pageEvs)

/-- Sequencing of one loop iteration with the rest of the loop: a returning
iteration ends the loop, a continuing one prepends its events. -/
def uploadLoopStep (res next : Option ChapResult × List Ev) :
    Option ChapResult × List Ev :=
  match res.1 with
  | some r => (some r, res.2)
  | none => (next.1, res.2 ++ next.2)

/-- The retry loop itself: run attempts from index `attempt` with `fuel`
iterations remaining; `(none, evs)` means the loop ran out of iterations
without returning (the fall-through case). -/
def uploadGo (key : String) (n : Nat) (script : Nat → AttemptWorld) :
    Nat → Nat → Option ChapResult × List Ev
  | 0, _ => (none, [])
  | fuel + 1, attempt =>
    uploadLoopStep (attemptStep key n attempt (script attempt))
      (uploadGo key n script fuel (attempt + 1))

/-- Embedding of `upload_chapter` (src/uploader.py 195-253): the loop over
`range(MAX_RETRIES)` followed by the fall-through
`return {..., "error": "Max retries exceeded"}`. -/
def upload_chapter (key : String) (n : Nat) (script : Nat → AttemptWorld) :
    ChapResult × List Ev :=
  ((uploadGo key n script MAX_RETRIES 0).1.getD ⟨key, false, false, "Max retries exceeded"⟩,
   (uploadGo key n script MAX_RETRIES 0).2)

/-- The exception object that reaches the `except` clauses of an attempt, if
any: a presign failure directly; otherwise, when all pages succeeded, a
finalize failure.  A page failure returns from the function without raising,
and a fully successful attempt returns normally, so both yield `none`. -/
def classifiedCall (w : AttemptWorld) : Option CallFailure :=
  match w.presign with
  | some f => some f
  | none => if w.pages.all PageResult.ok then w.finalize else none

/-- The attempt raises an HTTP error with a retryable status that is not the
duplicate-chapter response. -/
def isTransientAttempt (w : AttemptWorld) : Bool :=
  match classifiedCall w with
  | some (CallFailure.httpErr st _ m) =>
    RETRYABLE_STATUSES.contains st && !strContains (m.getD "") dupMsg
  | _ => false

/-- The attempt raises either a retryable non-duplicate HTTP error or a
generic (transport) exception: exactly the conditions under which a non-final
attempt continues the loop. -/
def isRetryableOrNet (w : AttemptWorld) : Bool :=
  match classifiedCall w with
  | some (CallFailure.httpErr st _ m) =>
    RETRYABLE_STATUSES.contains st && !strContains (m.getD "") dupMsg
  | some (CallFailure.exc _) => true
  | none => false

/-- The attempt raises an HTTP error whose JSON message reports the chapter
as already existing. -/
def isDupAttempt (w : AttemptWorld) : Bool :=
  match classifiedCall w with
  | some (CallFailure.httpErr _ _ m) => strContains (m.getD "") dupMsg
  | _ => false

/-! ### The tail of main (src/uploader.py 300-335) -/

/-- Final status text chosen by `main` for a terminal result. -/
def finalStatusText (r : ChapResult) : String :=
  if r.skipped then "Skipped (Exists)"
  else if r.success then "Done"
  else "Failed: " ++ r.error

/-- The terminal `update_chapter_status with the result key, the final status, and 1.0`. -/
def finalUpdate (r : ChapResult) : Ev :=
  Ev.upd (finalStatusText r) 1

/-- Every update a chapter experiences across its whole run: the loop trace
followed by the terminal pin to progress 1.0 performed by `main`. -/
def chapterRunEvents (key : String) (n : Nat) (script : Nat → AttemptWorld) : List Ev :=
  (upload_chapter key n script).2 ++ [finalUpdate (upload_chapter key n script).1]

/-- The partition loop of `main` (src/uploader.py 304-316): skipped and
failed chapter keys, in completion order. -/
def partitionOutcomes (rs : List ChapResult) : List String × List String :=
  rs.foldl
    (fun acc r =>
      if r.skipped then (acc.1 ++ [r.key], acc.2)
      else if r.success then acc
      else (acc.1, acc.2 ++ [r.key]))
    ([], [])

/-- The failed.txt content: the write loop
`for chapter_key in sorted(failed_chapters, key=natural_sort_key):
   f.write(f"{chapter_key}\n")` (src/uploader.py 327-329). -/
def failedFileContent (failedKeys : List String) : String :=
  (sortNaturally failedKeys).foldl (fun acc k => acc ++ k ++ "\n") ""

/-- User-visible outcome of the run epilogue, as a function of the collected
results and of whether the artifact write raises. -/
structure RunReport where
  skippedCount : Nat
  failedCount : Nat
  artifact : Option String
  writeErrorReported : Bool
  allSuccessMsg : Bool
deriving DecidableEq, Repr

/-- The epilogue of `main` (src/uploader.py 318-335): counts reported to the
user, the artifact written (if the failed set is nonempty and the write does
not raise), whether a write error is reported, and whether the final
all-success message is printed. -/
def finishRun (rs : List ChapResult) (totalChapters : Nat) (writeOk : Bool) : RunReport :=
  let parts := partitionOutcomes rs
  { skippedCount := parts.1.length
    failedCount := parts.2.length
    artifact := match parts.2, writeOk with
      | _ :: _, true => some (failedFileContent parts.2)
      | _, _ => none
    writeErrorReported := !parts.2.isEmpty && !writeOk
    allSuccessMsg := parts.2.isEmpty && decide (0 < totalChapters) }

/-! ### Auxiliary predicates and concrete scenarios used by the theorems -/

/-- Shape of a natural-sort key: alternating text and numeric tokens,
starting and ending with a text token (the shape `re.split` with one capture
group always produces). -/
def altShape : List Tok → Bool
  | [Tok.txt _] => true
  | Tok.txt _ :: Tok.num _ :: rest => altShape rest
  | _ => false

/-- Relation describing the observed progress evolution: each step either
does not decrease, or is a reset to 0 (the retry branches). -/
def progR (p q : ℚ) : Prop := p ≤ q ∨ q = 0

/-- Non-decreasing test on a list of rationals. -/
def nonDecr : List ℚ → Bool
  | [] => true
  | [_] => true
  | a :: b :: t => decide (a ≤ b) && nonDecr (b :: t)

/-- A presign response with a retryable transient status (HTTP 500). -/
def transient500 : AttemptWorld :=
  ⟨some (CallFailure.httpErr 500 "Internal Server Error" none), [], none⟩

/-- Script whose every attempt fails with the transient 500. -/
def cexScriptC1 : Nat → AttemptWorld := fun _ => transient500

/-- Script whose first attempt has a failing second page and whose later
attempts would succeed completely. -/
def cexScriptC2 : Nat → AttemptWorld := fun a =>
  if a == 0 then ⟨none, [⟨true, ""⟩, ⟨false, "boom"⟩], none⟩
  else ⟨none, [⟨true, ""⟩, ⟨true, ""⟩], none⟩

/-- Script used by the claim C2 witness: a transient 503 presign failure on
attempt 0, then a failing second page on attempt 1. -/
def witScriptC2 : Nat → AttemptWorld := fun a =>
  if a == 0 then ⟨some (CallFailure.httpErr 503 "Service Unavailable" none), [], none⟩
  else ⟨none, [⟨true, ""⟩, ⟨false, "boom"⟩], none⟩

/-- Script whose first attempt reaches finalize and gets a transient 500,
and whose second attempt succeeds. -/
def cexScriptC3 : Nat → AttemptWorld := fun a =>
  if a == 0 then ⟨none, [⟨true, ""⟩], some (CallFailure.httpErr 500 "Internal Server Error" none)⟩
  else ⟨none, [⟨true, ""⟩], none⟩

/-- Script used by witnesses: one transient 502 presign failure, then a
finalize response reporting the chapter as a duplicate. -/
def witScriptC4 : Nat → AttemptWorld := fun a =>
  if a == 0 then ⟨some (CallFailure.httpErr 502 "Bad Gateway" none), [], none⟩
  else ⟨none, [⟨true, ""⟩], some (CallFailure.httpErr 400 "Bad Request"
    (some "Chapter already exists for this comic"))⟩

/-- The root directory of the end-to-end scan scenario of the spec. -/
def rootC5 : List FsEntry :=
  [⟨"1 - Intro", true, [⟨"01.jpg", true⟩, ⟨"02.JPG", true⟩, ⟨"03.png", true⟩]⟩,
   ⟨"2", true, [⟨"p2.webp", true⟩, ⟨"p1.webp", true⟩]⟩,
   ⟨"2.5", true, [⟨"readme.txt", true⟩]⟩,
   ⟨"notes", true, [⟨"a.png", true⟩]⟩]

end Comick

namespace Comick

/-! ### Theorems -/

/-- The scanner always produces keys of the alternating shape. -/
theorem altShape_splitRuns (fuel : Nat) :
    ∀ acc cs, altShape (splitRuns fuel acc cs) = true := by
  induction fuel with
  | zero => intro acc cs; rfl
  | succ fuel ih =>
    intro acc cs
    show altShape (splitRunsStep (splitRuns fuel) acc cs) = true
    unfold splitRunsStep
    cases h : numSpan cs with
    | some p =>
      cases p with
      | mk sp rest => simpa [altShape] using ih [] rest
    | none =>
      cases cs with
      | nil => rfl
      | cons c rest => exact ih (c :: acc) rest

/-- Claim C6: the natural sort compares maximal numeric runs (optional single
decimal point, optional leading minus) numerically and other spans
case-insensitively as text, over an alternating split into non-numeric and
numeric spans; in particular `["2", "10", "1.5"]` sorts to
`["1.5", "2", "10"]`. -/
theorem claim_C6 :
    sortNaturally ["2", "10", "1.5"] = ["1.5", "2", "10"] ∧
    sortNaturally ["b", "A"] = ["A", "b"] ∧
    sortNaturally ["2", "-3"] = ["-3", "2"] ∧
    natural_sort_key "1.5" = [Tok.txt [], Tok.num ((3 : ℚ) / 2), Tok.txt []] ∧
    natural_sort_key "1 - Intro" =
      [Tok.txt [], Tok.num 1, Tok.txt [' ', '-', ' ', 'i', 'n', 't', 'r', 'o']] ∧
    ∀ s : String, altShape (natural_sort_key s) = true := by
  refine ⟨by decide, by decide, by decide, by decide, by decide, ?_⟩
  intro s
  exact altShape_splitRuns _ _ _

/-- Claim C5: scanning a root with `"1 - Intro"` (3 supported images), `"2"`
(2 supported images), `"2.5"` (no supported image) and `"notes"`
(non-matching name) yields exactly the two chapters
`("1 - Intro", number "1", title "Intro", 3 pages)` and
`("2", number "2", no title, 2 pages)`; `"2.5"` is excluded with a non-fatal
warning, `"notes"` is excluded, and the scan succeeds. -/
theorem claim_C5 :
    find_chapters true rootC5 =
      some ([("1 - Intro", ⟨"1", some "Intro", ["01.jpg", "02.JPG", "03.png"]⟩),
             ("2", ⟨"2", none, ["p1.webp", "p2.webp"]⟩)],
            ["2.5"]) := by decide

/-- Claim C7 (amended): for a qualifying directory name, the parsed title is
the stripped free text after the separator (`none` when no separator is
present), but the parsed chapter number is the portion of the name before the
first `" - "` substring — which coincides with the numeric head only when the
separator, if present, is written with single spaces around the dash.  In
particular `"12 - Finale"` parses to `("12", "Finale")` and `"7"` to
`("7", none)`. -/
theorem claim_C7 :
    parseChapterName "12 - Finale" = some ("12", some "Finale") ∧
    parseChapterName "7" = some ("7", none) ∧
    parseChapterName "2.5" = some ("2.5", none) ∧
    ∀ s r, parseChapterName s = some r → r.1 = beforeSep s := by
  refine ⟨by decide, by decide, by decide, ?_⟩
  intro s r h
  unfold parseChapterName at h
  cases hm : matchChapterPattern s with
  | none => rw [hm] at h; exact absurd h (by simp)
  | some g3 =>
    rw [hm] at h
    simp only [Option.some.injEq] at h
    rw [← h]

/-- Witness for claim C7, applying it at the input `"5 - X"`. -/
theorem claim_C7_witness : ("5", (some "X" : Option String)).1 = beforeSep "5 - X" :=
  claim_C7.2.2.2 "5 - X" ("5", some "X") (by decide)

/-- Counterexample to claim C7 as stated: `"1-Two"` qualifies (the regex
separator `\s*-\s*` allows zero spaces) but the parsed number is the whole
name `"1-Two"`, not the numeric head `"1"`. -/
theorem claim_C7_counterexample :
    parseChapterName "1-Two" = some ("1-Two", some "Two") ∧
    numericHead "1-Two" = "1" ∧ "1-Two" ≠ "1" := by decide

/-- Counterexample to claim C1 as stated: with every attempt failing on a
transient retryable 500, the loop does retry (two sleeps) but the terminal
outcome carries the final HTTP status message `"500 Internal Server Error"`,
which is not a max-retries-exceeded class message. -/
theorem claim_C1_counterexample :
    (upload_chapter "7" 1 cexScriptC1).1 =
      ⟨"7", false, false, "500 Internal Server Error"⟩ ∧
    strContains (lowerStr "500 Internal Server Error") "retries" = false ∧
    "500 Internal Server Error" ≠ "Max retries exceeded" ∧
    sleepCount (upload_chapter "7" 1 cexScriptC1).2 = 2 ∧
    isTransientAttempt transient500 = true ∧
    cexScriptC1 0 = transient500 ∧ cexScriptC1 1 = transient500 ∧
    cexScriptC1 2 = transient500 := by decide

/-- Counterexample to claim C2 as stated: a failing page on the first attempt
terminates the chapter immediately as Failed with that page error — no sleep
and no further attempt occurs, although the scripted second attempt would
have succeeded completely. -/
theorem claim_C2_counterexample :
    (upload_chapter "3" 2 cexScriptC2).1 = ⟨"3", false, false, "boom"⟩ ∧
    sleepCount (upload_chapter "3" 2 cexScriptC2).2 = 0 ∧
    (cexScriptC2 1).presign = none ∧
    (cexScriptC2 1).pages.all PageResult.ok = true ∧
    (cexScriptC2 1).finalize = none := by decide

/-- Counterexample to claim C3 as stated: when the first attempt reaches
finalize (progress 0.95) and gets a transient 500, the retry resets progress
to 0, so the recorded progress sequence is not monotonically non-decreasing. -/
theorem claim_C3_counterexample :
    progVals (chapterRunEvents "7" 1 cexScriptC3) =
      [0, 9/10, 19/20, 0, 0, 9/10, 19/20, 1] ∧
    nonDecr (progVals (chapterRunEvents "7" 1 cexScriptC3)) = false := by decide

/-! ### Lemmas about one iteration of the retry loop -/

/-- Page-progress updates contain no sleeps. -/
theorem filter_sleep_pageProgressUpdates (pre : String) (n : Nat) :
    ∀ S, (pageProgressUpdates pre n S).filter isSleepEv = [] := by
  intro S
  induction S with
  | zero => rfl
  | succ S ih => simp [pageProgressUpdates, List.filter_append, ih, isSleepEv]

/-- When an exception reaches the handlers, the iteration result and its
sleeps are those of `handleFailure`. -/
theorem attemptStep_of_classified (key : String) (n : Nat) (attempt : Nat)
    (w : AttemptWorld) (f : CallFailure) (h : classifiedCall w = some f) :
    (attemptStep key n attempt w).1 = (handleFailure key attempt f).1 ∧
    (attemptStep key n attempt w).2.filter isSleepEv =
      (handleFailure key attempt f).2.filter isSleepEv := by
  cases hp : w.presign with
  | some g =>
    have hg : g = f := by
      unfold classifiedCall at h
      rw [hp] at h
      exact Option.some.inj h
    subst hg
    constructor
    · simp [attemptStep, hp]
    · simp [attemptStep, hp, List.filter_append, isSleepEv]
  | none =>
    have hall : w.pages.all PageResult.ok = true := by
      unfold classifiedCall at h
      rw [hp] at h
      cases hall : w.pages.all PageResult.ok with
      | true => rfl
      | false => rw [hall] at h; simp at h
    have hfin : w.finalize = some f := by
      unfold classifiedCall at h
      rw [hp, hall] at h
      simpa using h
    constructor
    · simp [attemptStep, hp, hall, hfin]
    · simp [attemptStep, hp, hall, hfin, List.filter_append, isSleepEv,
        filter_sleep_pageProgressUpdates]

/-- The duplicate-chapter branch of the handlers. -/
theorem handleFailure_dup (key : String) (attempt : Nat) (st : Nat)
    (reason : String) (m : Option String)
    (hdup : strContains (m.getD "") dupMsg = true) :
    handleFailure key attempt (CallFailure.httpErr st reason m) =
      (some ⟨key, true, true, ""⟩, []) := by
  simp [handleFailure, hdup]

/-- The retryable-status branch of the handlers. -/
theorem handleFailure_retry (key : String) (attempt : Nat) (st : Nat)
    (reason : String) (m : Option String)
    (hdup : strContains (m.getD "") dupMsg = false)
    (hst : RETRYABLE_STATUSES.contains st = true)
    (hatt : attempt < MAX_RETRIES - 1) :
    handleFailure key attempt (CallFailure.httpErr st reason m) =
      (none, [Ev.upd ("Server Error (" ++ toString st ++ ")... Retrying") 0,
              Ev.sleep RETRY_DELAY]) := by
  have hst' : st ∈ RETRYABLE_STATUSES := by simpa using hst
  simp [handleFailure, hdup, hst', hatt]

/-- The terminal HTTP-error branch of the handlers. -/
theorem handleFailure_final (key : String) (attempt : Nat) (st : Nat)
    (reason : String) (m : Option String)
    (hdup : strContains (m.getD "") dupMsg = false)
    (hatt : ¬ attempt < MAX_RETRIES - 1) :
    handleFailure key attempt (CallFailure.httpErr st reason m) =
      (some ⟨key, false, false, toString st ++ " " ++ reason⟩, []) := by
  simp [handleFailure, hdup, hatt]

/-- The generic-exception retry branch of the handlers. -/
theorem handleFailure_exc_retry (key : String) (attempt : Nat) (m : String)
    (hatt : attempt < MAX_RETRIES - 1) :
    handleFailure key attempt (CallFailure.exc m) =
      (none, [Ev.upd "Network Error... Retrying" 0, Ev.sleep RETRY_DELAY]) := by
  simp [handleFailure, hatt]

/-- A transient HTTP failure is in particular a continue-eligible failure. -/
theorem transient_retryable (w : AttemptWorld) (h : isTransientAttempt w = true) :
    isRetryableOrNet w = true := by
  unfold isTransientAttempt at h
  unfold isRetryableOrNet
  cases hc : classifiedCall w with
  | none => simp_all
  | some f => cases f <;> simp_all

/-- A continue-eligible failure on a non-final attempt continues the loop
after exactly one sleep of the configured delay. -/
theorem attemptStep_continue (key : String) (n : Nat) (attempt : Nat)
    (w : AttemptWorld) (hw : isRetryableOrNet w = true)
    (hatt : attempt < MAX_RETRIES - 1) :
    (attemptStep key n attempt w).1 = none ∧
    (attemptStep key n attempt w).2.filter isSleepEv = [Ev.sleep RETRY_DELAY] := by
  unfold isRetryableOrNet at hw
  cases hc : classifiedCall w with
  | none => rw [hc] at hw; simp at hw
  | some f =>
    rw [hc] at hw
    obtain ⟨h1, h2⟩ := attemptStep_of_classified key n attempt w f hc
    cases f with
    | httpErr st reason m =>
      simp only [Bool.and_eq_true, Bool.not_eq_true'] at hw
      have hst : RETRYABLE_STATUSES.contains st = true := by simpa using hw.1
      have hdup : strContains (m.getD "") dupMsg = false := hw.2
      rw [handleFailure_retry key attempt st reason m hdup hst hatt] at h1 h2
      exact ⟨h1, by simpa [isSleepEv] using h2⟩
    | exc m =>
      rw [handleFailure_exc_retry key attempt m hatt] at h1 h2
      exact ⟨h1, by simpa [isSleepEv] using h2⟩

/-- A duplicate-chapter response resolves the iteration to the skipped
result, with no sleep, on any attempt. -/
theorem attemptStep_dup (key : String) (n : Nat) (attempt : Nat)
    (w : AttemptWorld) (hw : isDupAttempt w = true) :
    (attemptStep key n attempt w).1 = some ⟨key, true, true, ""⟩ ∧
    (attemptStep key n attempt w).2.filter isSleepEv = [] := by
  unfold isDupAttempt at hw
  cases hc : classifiedCall w with
  | none => rw [hc] at hw; simp at hw
  | some f =>
    rw [hc] at hw
    obtain ⟨h1, h2⟩ := attemptStep_of_classified key n attempt w f hc
    cases f with
    | httpErr st reason m =>
      have hw' : strContains (m.getD "") dupMsg = true := by simpa using hw
      rw [handleFailure_dup key attempt st reason m hw'] at h1 h2
      exact ⟨h1, by simpa using h2⟩
    | exc m => simp at hw

/-- A transient HTTP failure on the final attempt returns the Failed result
carrying the HTTP status message, with no sleep. -/
theorem attemptStep_final_transient (key : String) (n : Nat) (attempt : Nat)
    (w : AttemptWorld) (st : Nat) (reason : String) (m : Option String)
    (hc : classifiedCall w = some (CallFailure.httpErr st reason m))
    (hw : isTransientAttempt w = true)
    (hatt : ¬ attempt < MAX_RETRIES - 1) :
    (attemptStep key n attempt w).1 =
      some ⟨key, false, false, toString st ++ " " ++ reason⟩ ∧
    (attemptStep key n attempt w).2.filter isSleepEv = [] := by
  unfold isTransientAttempt at hw
  rw [hc] at hw
  simp only [Bool.and_eq_true, Bool.not_eq_true'] at hw
  obtain ⟨hst, hdup⟩ := hw
  obtain ⟨h1, h2⟩ := attemptStep_of_classified key n attempt w _ hc
  rw [handleFailure_final key attempt st reason m hdup hatt] at h1 h2
  exact ⟨h1, by simpa using h2⟩

/-- On the final attempt every branch of the iteration returns. -/
theorem attemptStep_last_isSome (key : String) (n : Nat) (attempt : Nat)
    (w : AttemptWorld) (hatt : ¬ attempt < MAX_RETRIES - 1) :
    (attemptStep key n attempt w).1.isSome = true := by
  cases hc : classifiedCall w with
  | some f =>
    obtain ⟨h1, _⟩ := attemptStep_of_classified key n attempt w f hc
    rw [h1]
    cases f with
    | httpErr st reason m =>
      cases hdup : strContains (m.getD "") dupMsg with
      | true => rw [handleFailure_dup key attempt st reason m hdup]; rfl
      | false => rw [handleFailure_final key attempt st reason m hdup hatt]; rfl
    | exc m => simp [handleFailure, hatt]
  | none =>
    unfold classifiedCall at hc
    cases hp : w.presign with
    | some g => rw [hp] at hc; simp at hc
    | none =>
      rw [hp] at hc
      cases hall : w.pages.all PageResult.ok with
      | false => simp [attemptStep, hp, hall]
      | true =>
        rw [hall] at hc
        simp only [if_true] at hc
        simp [attemptStep, hp, hall, hc]

/-- Unrolling equation of the retry loop. -/
theorem uploadGo_eq_succ (key : String) (n : Nat) (script : Nat → AttemptWorld)
    (fuel attempt : Nat) :
    uploadGo key n script (fuel + 1) attempt =
      uploadLoopStep (attemptStep key n attempt (script attempt))
        (uploadGo key n script fuel (attempt + 1)) := by
  rw [uploadGo]

/-- Claim C10: the retry loop always returns from inside its body — on every
non-final attempt each error branch either returns or sleeps and continues,
and on the final attempt every branch returns — so the fall-through return
whose error is the literal string `"Max retries exceeded"` is unreachable for
every input. -/
theorem claim_C10 (key : String) (n : Nat) (script : Nat → AttemptWorld) :
    (uploadGo key n script MAX_RETRIES 0).1.isSome = true := by
  have hlast := attemptStep_last_isSome key n 2 (script 2) (by decide)
  show (uploadGo key n script (2 + 1) 0).1.isSome = true
  rw [uploadGo_eq_succ]
  cases h0 : (attemptStep key n 0 (script 0)).1 with
  | some r => simp [uploadLoopStep, h0]
  | none =>
    simp only [uploadLoopStep, h0]
    show (uploadGo key n script (1 + 1) 1).1.isSome = true
    rw [uploadGo_eq_succ]
    cases h1 : (attemptStep key n 1 (script 1)).1 with
    | some r => simp [uploadLoopStep, h1]
    | none =>
      simp only [uploadLoopStep, h1]
      show (uploadGo key n script (0 + 1) 2).1.isSome = true
      rw [uploadGo_eq_succ]
      cases h2 : (attemptStep key n 2 (script 2)).1 with
      | some r => simp [uploadLoopStep, h2]
      | none => rw [h2] at hlast; simp at hlast

/-- Claim C1 (amended): a chapter whose attempts all hit transient retryable
status codes is retried `MAX_RETRIES - 1` additional times with one
`RETRY_DELAY` sleep between attempts, and the terminal outcome is Failed —
but the reported message is the final HTTP status message
`"<status> <reason>"`, not a max-retries-exceeded class message (the
`"Max retries exceeded"` fall-through is unreachable). -/
theorem claim_C1 (key : String) (n : Nat) (script : Nat → AttemptWorld)
    (st : Nat) (reason : String) (m : Option String)
    (htrans : ∀ a, a < MAX_RETRIES → isTransientAttempt (script a) = true)
    (hlast : classifiedCall (script (MAX_RETRIES - 1)) =
      some (CallFailure.httpErr st reason m)) :
    (upload_chapter key n script).1 =
      ⟨key, false, false, toString st ++ " " ++ reason⟩ ∧
    (upload_chapter key n script).2.filter isSleepEv =
      [Ev.sleep RETRY_DELAY, Ev.sleep RETRY_DELAY] := by
  have ht0 := transient_retryable _ (htrans 0 (by decide))
  have ht1 := transient_retryable _ (htrans 1 (by decide))
  obtain ⟨s0, e0⟩ := attemptStep_continue key n 0 (script 0) ht0 (by decide)
  obtain ⟨s1, e1⟩ := attemptStep_continue key n 1 (script 1) ht1 (by decide)
  obtain ⟨s2, e2⟩ := attemptStep_final_transient key n 2 (script 2) st reason m
    hlast (htrans 2 (by decide)) (by decide)
  have hgo : uploadGo key n script MAX_RETRIES 0 =
      (some ⟨key, false, false, toString st ++ " " ++ reason⟩,
       (attemptStep key n 0 (script 0)).2 ++
         ((attemptStep key n 1 (script 1)).2 ++ (attemptStep key n 2 (script 2)).2)) := by
    show uploadGo key n script (2 + 1) 0 = _
    rw [uploadGo_eq_succ]
    show uploadLoopStep _ (uploadGo key n script (1 + 1) 1) = _
    rw [uploadGo_eq_succ]
    show uploadLoopStep _ (uploadLoopStep _ (uploadGo key n script (0 + 1) 2)) = _
    rw [uploadGo_eq_succ, uploadGo]
    simp [uploadLoopStep, s0, s1, s2]
  constructor
  · simp [upload_chapter, hgo]
  · simp [upload_chapter, hgo, List.filter_append, e0, e1, e2]

/-- Witness for claim C1, applying it to the all-500 script. -/
theorem claim_C1_witness :
    (upload_chapter "7" 1 cexScriptC1).1 =
      ⟨"7", false, false, toString 500 ++ " " ++ "Internal Server Error"⟩ ∧
    (upload_chapter "7" 1 cexScriptC1).2.filter isSleepEv =
      [Ev.sleep RETRY_DELAY, Ev.sleep RETRY_DELAY] :=
  claim_C1 "7" 1 cexScriptC1 500 "Internal Server Error" none
    (by decide) (by decide)

/-- The `find?` search returns the entry at the first failing index. -/
theorem find?_first_false (ps : List PageResult) :
    ∀ i, ∀ hi : i < ps.length, (ps.get ⟨i, hi⟩).ok = false →
    (∀ k, ∀ hk : k < i, (ps.get ⟨k, Nat.lt_trans hk hi⟩).ok = true) →
    ps.find? (fun p => !p.ok) = some (ps.get ⟨i, hi⟩) := by
  induction ps with
  | nil => intro i hi; exact absurd hi (by simp)
  | cons p tl ih =>
    intro i hi hfalse hbefore
    cases i with
    | zero =>
      simp only [List.get] at hfalse ⊢
      rw [List.find?_cons_of_pos]
      simp [hfalse]
    | succ i =>
      have hp : p.ok = true := by simpa using hbefore 0 (Nat.succ_pos i)
      rw [List.find?_cons_of_neg]
      · exact ih i (by simpa using hi) (by simpa using hfalse)
          (fun k hk => by simpa using hbefore (k + 1) (Nat.succ_lt_succ hk))
      · simp [hp]

/-- A page failure (presign succeeded, not all pages ok) returns the Failed
result carrying the first failed page error immediately, with no sleep, on
any attempt. -/
theorem attemptStep_pagefail (key : String) (n : Nat) (attempt : Nat)
    (w : AttemptWorld) (hp : w.presign = none)
    (hfail : w.pages.all PageResult.ok = false) :
    (attemptStep key n attempt w).1 =
      some ⟨key, false, false, firstPageError w.pages⟩ ∧
    (attemptStep key n attempt w).2.filter isSleepEv = [] := by
  constructor
  · simp [attemptStep, hp, hfail, firstPageError]
  · simp [attemptStep, hp, hfail, List.filter_append, isSleepEv,
      filter_sleep_pageProgressUpdates]

/-- Claim C2 (amended): a chapter attempt with at least one failed page —
whatever the attempt index, including attempts reached after earlier
transient retries — returns immediately as Failed with the first (in page
order) failed page error as the reported cause.  The failure is not handed
to the retry machinery: no sleep occurs at that attempt and no further
attempt is made, the only sleeps being those of the earlier continuing
attempts. -/
theorem claim_C2 (key : String) (n : Nat) (script : Nat → AttemptWorld)
    (j : Nat) (hj : j < MAX_RETRIES)
    (hpre : ∀ i, i < j → isRetryableOrNet (script i) = true)
    (hp : (script j).presign = none)
    (hfail : (script j).pages.all PageResult.ok = false) :
    (upload_chapter key n script).1 =
      ⟨key, false, false, firstPageError (script j).pages⟩ ∧
    (upload_chapter key n script).2.filter isSleepEv =
      List.replicate j (Ev.sleep RETRY_DELAY) ∧
    ∀ i, ∀ hi : i < (script j).pages.length,
      ((script j).pages.get ⟨i, hi⟩).ok = false →
      (∀ k, ∀ hk : k < i, ((script j).pages.get ⟨k, Nat.lt_trans hk hi⟩).ok = true) →
      firstPageError (script j).pages = ((script j).pages.get ⟨i, hi⟩).err := by
  have hj3 : j = 0 ∨ j = 1 ∨ j = 2 := by
    have : j < 3 := hj
    omega
  have hmain : (upload_chapter key n script).1 =
      ⟨key, false, false, firstPageError (script j).pages⟩ ∧
      (upload_chapter key n script).2.filter isSleepEv =
        List.replicate j (Ev.sleep RETRY_DELAY) := by
    rcases hj3 with hj0 | hj1 | hj2
    · subst hj0
      obtain ⟨s0, e0⟩ := attemptStep_pagefail key n 0 (script 0) hp hfail
      have hgo : uploadGo key n script MAX_RETRIES 0 =
          (some ⟨key, false, false, firstPageError (script 0).pages⟩,
           (attemptStep key n 0 (script 0)).2) := by
        show uploadGo key n script (2 + 1) 0 = _
        rw [uploadGo_eq_succ]
        simp [uploadLoopStep, s0]
      exact ⟨by simp [upload_chapter, hgo], by simp [upload_chapter, hgo, e0]⟩
    · subst hj1
      obtain ⟨s0, e0⟩ := attemptStep_continue key n 0 (script 0)
        (hpre 0 (by decide)) (by decide)
      obtain ⟨s1, e1⟩ := attemptStep_pagefail key n 1 (script 1) hp hfail
      have hgo : uploadGo key n script MAX_RETRIES 0 =
          (some ⟨key, false, false, firstPageError (script 1).pages⟩,
           (attemptStep key n 0 (script 0)).2 ++ (attemptStep key n 1 (script 1)).2) := by
        show uploadGo key n script (2 + 1) 0 = _
        rw [uploadGo_eq_succ]
        show uploadLoopStep _ (uploadGo key n script (1 + 1) 1) = _
        rw [uploadGo_eq_succ]
        simp [uploadLoopStep, s0, s1]
      exact ⟨by simp [upload_chapter, hgo],
        by simp [upload_chapter, hgo, List.filter_append, e0, e1, List.replicate]⟩
    · subst hj2
      obtain ⟨s0, e0⟩ := attemptStep_continue key n 0 (script 0)
        (hpre 0 (by decide)) (by decide)
      obtain ⟨s1, e1⟩ := attemptStep_continue key n 1 (script 1)
        (hpre 1 (by decide)) (by decide)
      obtain ⟨s2, e2⟩ := attemptStep_pagefail key n 2 (script 2) hp hfail
      have hgo : uploadGo key n script MAX_RETRIES 0 =
          (some ⟨key, false, false, firstPageError (script 2).pages⟩,
           (attemptStep key n 0 (script 0)).2 ++
             ((attemptStep key n 1 (script 1)).2 ++ (attemptStep key n 2 (script 2)).2)) := by
        show uploadGo key n script (2 + 1) 0 = _
        rw [uploadGo_eq_succ]
        show uploadLoopStep _ (uploadGo key n script (1 + 1) 1) = _
        rw [uploadGo_eq_succ]
        show uploadLoopStep _ (uploadLoopStep _ (uploadGo key n script (0 + 1) 2)) = _
        rw [uploadGo_eq_succ, uploadGo]
        simp [uploadLoopStep, s0, s1, s2]
      exact ⟨by simp [upload_chapter, hgo],
        by simp [upload_chapter, hgo, List.filter_append, e0, e1, e2, List.replicate]⟩
  refine ⟨hmain.1, hmain.2, ?_⟩
  intro i hi hfalse hbefore
  have hfind := find?_first_false (script j).pages i hi hfalse hbefore
  simp [firstPageError, hfind]

/-- Witness for claim C2, applying it to a script that retries a transient
503 and then hits a failing second page on attempt 1. -/
theorem claim_C2_witness :
    ((upload_chapter "3" 2 witScriptC2).1 =
      ⟨"3", false, false, firstPageError (witScriptC2 1).pages⟩ ∧
     (upload_chapter "3" 2 witScriptC2).2.filter isSleepEv =
       List.replicate 1 (Ev.sleep RETRY_DELAY)) ∧
    firstPageError (witScriptC2 1).pages =
      ((witScriptC2 1).pages.get ⟨1, by decide⟩).err :=
  ⟨⟨(claim_C2 "3" 2 witScriptC2 1 (by decide) (by decide) (by decide) (by decide)).1,
    (claim_C2 "3" 2 witScriptC2 1 (by decide) (by decide) (by decide) (by decide)).2.1⟩,
   (claim_C2 "3" 2 witScriptC2 1 (by decide) (by decide) (by decide) (by decide)).2.2 1
     (by decide) (by decide) (by decide)⟩

/-- Claim C4: a duplicate-chapter error response resolves the chapter as
Skipped with success semantics (counted skipped, not failed) on the attempt
where it is observed: the loop ends there, with exactly the `j` sleeps of the
earlier continuing attempts and none after the duplicate is seen. -/
theorem claim_C4 (key : String) (n : Nat) (script : Nat → AttemptWorld) (j : Nat)
    (hj : j < MAX_RETRIES)
    (hpre : ∀ i, i < j → isRetryableOrNet (script i) = true)
    (hdup : isDupAttempt (script j) = true) :
    (upload_chapter key n script).1 = ⟨key, true, true, ""⟩ ∧
    (upload_chapter key n script).2.filter isSleepEv =
      List.replicate j (Ev.sleep RETRY_DELAY) ∧
    partitionOutcomes [(upload_chapter key n script).1] = ([key], []) := by
  have hj3 : j = 0 ∨ j = 1 ∨ j = 2 := by
    have : j < 3 := hj
    omega
  have hmain : (upload_chapter key n script).1 = ⟨key, true, true, ""⟩ ∧
      (upload_chapter key n script).2.filter isSleepEv =
        List.replicate j (Ev.sleep RETRY_DELAY) := by
    rcases hj3 with hj0 | hj1 | hj2
    · subst hj0
      obtain ⟨s0, e0⟩ := attemptStep_dup key n 0 (script 0) hdup
      have hgo : uploadGo key n script MAX_RETRIES 0 =
          (some ⟨key, true, true, ""⟩, (attemptStep key n 0 (script 0)).2) := by
        show uploadGo key n script (2 + 1) 0 = _
        rw [uploadGo_eq_succ]
        simp [uploadLoopStep, s0]
      exact ⟨by simp [upload_chapter, hgo],
        by simp [upload_chapter, hgo, e0]⟩
    · subst hj1
      obtain ⟨s0, e0⟩ := attemptStep_continue key n 0 (script 0)
        (hpre 0 (by decide)) (by decide)
      obtain ⟨s1, e1⟩ := attemptStep_dup key n 1 (script 1) hdup
      have hgo : uploadGo key n script MAX_RETRIES 0 =
          (some ⟨key, true, true, ""⟩,
           (attemptStep key n 0 (script 0)).2 ++ (attemptStep key n 1 (script 1)).2) := by
        show uploadGo key n script (2 + 1) 0 = _
        rw [uploadGo_eq_succ]
        show uploadLoopStep _ (uploadGo key n script (1 + 1) 1) = _
        rw [uploadGo_eq_succ]
        simp [uploadLoopStep, s0, s1]
      exact ⟨by simp [upload_chapter, hgo],
        by simp [upload_chapter, hgo, List.filter_append, e0, e1, List.replicate]⟩
    · subst hj2
      obtain ⟨s0, e0⟩ := attemptStep_continue key n 0 (script 0)
        (hpre 0 (by decide)) (by decide)
      obtain ⟨s1, e1⟩ := attemptStep_continue key n 1 (script 1)
        (hpre 1 (by decide)) (by decide)
      obtain ⟨s2, e2⟩ := attemptStep_dup key n 2 (script 2) hdup
      have hgo : uploadGo key n script MAX_RETRIES 0 =
          (some ⟨key, true, true, ""⟩,
           (attemptStep key n 0 (script 0)).2 ++
             ((attemptStep key n 1 (script 1)).2 ++ (attemptStep key n 2 (script 2)).2)) := by
        show uploadGo key n script (2 + 1) 0 = _
        rw [uploadGo_eq_succ]
        show uploadLoopStep _ (uploadGo key n script (1 + 1) 1) = _
        rw [uploadGo_eq_succ]
        show uploadLoopStep _ (uploadLoopStep _ (uploadGo key n script (0 + 1) 2)) = _
        rw [uploadGo_eq_succ, uploadGo]
        simp [uploadLoopStep, s0, s1, s2]
      exact ⟨by simp [upload_chapter, hgo],
        by simp [upload_chapter, hgo, List.filter_append, e0, e1, e2, List.replicate]⟩
  refine ⟨hmain.1, hmain.2, ?_⟩
  rw [hmain.1]
  simp [partitionOutcomes]

/-! ### Progress-trace lemmas -/

/-- Splitting progress values over concatenated traces. -/
theorem progVals_append (a b : List Ev) :
    progVals (a ++ b) = progVals a ++ progVals b := by
  simp [progVals]

/-- The progress values of the page-upload updates. -/
theorem progVals_pageProgressUpdates (pre : String) (n : Nat) :
    ∀ S, progVals (pageProgressUpdates pre n S) =
      (List.range S).map (fun k => progressAfter n (k + 1)) := by
  intro S
  induction S with
  | zero => rfl
  | succ S ih =>
    rw [pageProgressUpdates, progVals_append, ih, List.range_succ]
    simp [progVals]

/-- The per-page progress expression is strictly increasing in the completed
count. -/
theorem progressAfter_lt (n a b : Nat) (hn : 0 < n) (h : a < b) :
    progressAfter n a < progressAfter n b := by
  unfold progressAfter
  have hn' : (0 : ℚ) < n := by exact_mod_cast hn
  have hab : (a : ℚ) < b := by exact_mod_cast h
  gcongr

/-- The per-page progress expression stays at or below 0.9 while completed
pages do not exceed the page count. -/
theorem progressAfter_le (n s : Nat) (hn : 0 < n) (hs : s ≤ n) :
    progressAfter n s ≤ (0.9 : ℚ) := by
  unfold progressAfter
  have hn' : (0 : ℚ) < n := by exact_mod_cast hn
  have h1 : ((s : ℚ) / n) ≤ 1 := by
    rw [div_le_one hn']
    exact_mod_cast hs
  have h2 : ((s : ℚ) / n) * 0.8 ≤ 1 * 0.8 := by
    have : (0 : ℚ) ≤ 0.8 := by norm_num
    exact mul_le_mul_of_nonneg_right h1 this
  norm_num at h2 ⊢
  linarith

/-- The per-page progress expression exceeds 0.1 once a page completed. -/
theorem progressAfter_gt (n s : Nat) (hn : 0 < n) (hs : 0 < s) :
    (0.1 : ℚ) < progressAfter n s := by
  unfold progressAfter
  have hn' : (0 : ℚ) < n := by exact_mod_cast hn
  have hs' : (0 : ℚ) < s := by exact_mod_cast hs
  have : (0 : ℚ) < ((s : ℚ) / n) * 0.8 := by positivity
  linarith

/-- Claim C8: during the page-upload phase, after each successful page the
reported progress equals 0.1 plus 0.8 times (pages completed so far / total
pages), strictly rising and staying within (0.1, 0.9]. -/
theorem claim_C8 (pre : String) (n S : Nat) (hn : 0 < n) (hS : S ≤ n) :
    progVals (pageProgressUpdates pre n S) =
      (List.range S).map (fun (k : Nat) => (0.1 : ℚ) + (0.8 : ℚ) * (((k : ℚ) + 1) / (n : ℚ))) ∧
    List.Chain' (· < ·) (progVals (pageProgressUpdates pre n S)) ∧
    ∀ v ∈ progVals (pageProgressUpdates pre n S), (0.1 : ℚ) < v ∧ v ≤ (0.9 : ℚ) := by
  refine ⟨?_, ?_, ?_⟩
  · rw [progVals_pageProgressUpdates]
    apply List.map_congr_left
    intro k _
    unfold progressAfter
    push_cast
    ring
  · rw [progVals_pageProgressUpdates, List.chain'_iff_get]
    intro i hi
    simp only [List.get_eq_getElem, List.getElem_map, List.getElem_range]
    exact progressAfter_lt n (i + 1) (i + 1 + 1) hn (by omega)
  · rw [progVals_pageProgressUpdates]
    intro v hv
    simp only [List.mem_map, List.mem_range] at hv
    obtain ⟨k, hk, rfl⟩ := hv
    exact ⟨progressAfter_gt n (k + 1) hn (by omega),
      progressAfter_le n (k + 1) hn (by omega)⟩

/-- Witness for claim C8, applying it with 2 pages, both completed. -/
theorem claim_C8_witness :
    (progVals (pageProgressUpdates "" 2 2) =
      (List.range 2).map (fun (k : Nat) => (0.1 : ℚ) + (0.8 : ℚ) * (((k : ℚ) + 1) / ((2 : Nat) : ℚ))) ∧
     List.Chain' (· < ·) (progVals (pageProgressUpdates "" 2 2))) ∧
    (0.1 : ℚ) < mkRat 1 2 ∧ mkRat 1 2 ≤ (0.9 : ℚ) :=
  ⟨⟨(claim_C8 "" 2 2 (by norm_num) (by norm_num)).1,
    (claim_C8 "" 2 2 (by norm_num) (by norm_num)).2.1⟩,
   (claim_C8 "" 2 2 (by norm_num) (by norm_num)).2.2 (mkRat 1 2) (by decide)⟩

/-- Members of the last position are members. -/
theorem mem_of_getLast? {l : List ℚ} {a : ℚ} (h : l.getLast? = some a) :
    a ∈ l := by
  have hx : a ∈ l.getLast? := h
  obtain ⟨hne, rfl⟩ := List.mem_getLast?_eq_getLast hx
  exact List.getLast_mem hne

/-- The handler traces carry no progress value other than a reset to 0. -/
theorem progVals_handleFailure (key : String) (attempt : Nat) (f : CallFailure) :
    progVals (handleFailure key attempt f).2 = [] ∨
    progVals (handleFailure key attempt f).2 = [0] := by
  cases f with
  | httpErr st reason m =>
    simp only [handleFailure]
    split
    · left; simp [progVals]
    · split
      · right; simp [progVals]
      · left; simp [progVals]
  | exc m =>
    simp only [handleFailure]
    split
    · right; simp [progVals]
    · left; simp [progVals]

/-- Appending a trace that starts with a reset (or is empty) preserves the
progress chain. -/
theorem chain_progR_append (xs ys : List ℚ)
    (hx : List.Chain' progR xs) (hy : List.Chain' progR ys)
    (hhead : ys.head? = some 0 ∨ ys = []) :
    List.Chain' progR (xs ++ ys) := by
  apply hx.append hy
  intro x _ y hyh
  rcases hhead with h | h
  · rw [h] at hyh
    simp only [Option.mem_def, Option.some.injEq] at hyh
    subst hyh
    exact Or.inr rfl
  · subst h
    simp at hyh

/-- A member of the head is a member. -/
theorem head?_mem {l : List ℚ} {a : ℚ} (h : a ∈ l.head?) : a ∈ l := by
  cases l with
  | nil => simp at h
  | cons x t =>
    simp only [List.head?_cons, Option.mem_def, Option.some.injEq] at h
    subst h
    exact List.mem_cons_self x t

/-- The ascending page values, bracketed by the initial reset and the 0.95
finalize update, form an ascending chain. -/
theorem chain_le_block (xs : List ℚ) (hchain : List.Chain' (· ≤ ·) xs)
    (hmem : ∀ v ∈ xs, 0 ≤ v ∧ v ≤ (0.95 : ℚ)) :
    List.Chain' (· ≤ ·) (((0 : ℚ) :: xs) ++ [(0.95 : ℚ)]) := by
  have h1 : List.Chain' (· ≤ ·) ((0 : ℚ) :: xs) := by
    rw [List.chain'_cons']
    exact ⟨fun h hh => (hmem h (head?_mem hh)).1, hchain⟩
  apply h1.append (List.chain'_singleton _)
  intro x hx y hy
  simp only [List.head?_cons, Option.mem_def, Option.some.injEq] at hy
  subst hy
  rcases List.mem_cons.mp (mem_of_getLast? hx) with h0 | hxs
  · subst h0; norm_num
  · exact (hmem x hxs).2

/-- One successful-upload block (reset, ascending page values, 0.95) followed
by an optional handler reset is a valid progress chain. -/
theorem chain_block_full (xs rvals : List ℚ)
    (hchain : List.Chain' (· ≤ ·) xs)
    (hmem : ∀ v ∈ xs, 0 ≤ v ∧ v ≤ (0.95 : ℚ))
    (hrest : rvals = [] ∨ rvals = [0]) :
    List.Chain' progR ((0 : ℚ) :: (xs ++ ((0.95 : ℚ) :: rvals))) := by
  have hA : List.Chain' progR (((0 : ℚ) :: xs) ++ [(0.95 : ℚ)]) :=
    (chain_le_block xs hchain hmem).imp (fun _ _ h => Or.inl h)
  have hB : List.Chain' progR rvals := by
    rcases hrest with h | h <;> rw [h]
    · exact List.chain'_nil
    · exact List.chain'_singleton _
  have hglue : rvals.head? = some 0 ∨ rvals = [] := by
    rcases hrest with h | h <;> rw [h]
    · exact Or.inr rfl
    · exact Or.inl rfl
  have hall := chain_progR_append _ _ hA hB hglue
  simpa [List.append_assoc] using hall

/-- Progress values emitted by one iteration: they form a valid chain,
start with the reset to 0, and stay within [0, 0.95]. -/
theorem attempt_vals (key : String) (n : Nat) (attempt : Nat) (w : AttemptWorld)
    (hn : 0 < n) (hlen : w.pages.length ≤ n) :
    List.Chain' progR (progVals (attemptStep key n attempt w).2) ∧
    (progVals (attemptStep key n attempt w).2).head? = some 0 ∧
    ∀ v ∈ progVals (attemptStep key n attempt w).2, 0 ≤ v ∧ v ≤ (0.95 : ℚ) := by
  have hS : (w.pages.filter PageResult.ok).length ≤ n :=
    le_trans (List.length_filter_le _ _) hlen
  set pre := (if attempt > 0 then
      "Retrying (" ++ toString (attempt + 1) ++ "/" ++ toString MAX_RETRIES ++ ")... "
     else "") with hpre
  set S := (w.pages.filter PageResult.ok).length with hSdef
  have hpv := progVals_pageProgressUpdates pre n S
  have hpchain : List.Chain' (· ≤ ·) (progVals (pageProgressUpdates pre n S)) := by
    rw [hpv, List.chain'_iff_get]
    intro i hi
    simp only [List.get_eq_getElem, List.getElem_map, List.getElem_range]
    exact le_of_lt (progressAfter_lt n (i + 1) (i + 1 + 1) hn (by omega))
  have hpmem : ∀ v ∈ progVals (pageProgressUpdates pre n S), 0 ≤ v ∧ v ≤ (0.95 : ℚ) := by
    rw [hpv]
    intro v hv
    simp only [List.mem_map, List.mem_range] at hv
    obtain ⟨k, hk, rfl⟩ := hv
    have h1 := progressAfter_gt n (k + 1) hn (by omega)
    have h2 := progressAfter_le n (k + 1) hn (by omega)
    have h3 : (0.9 : ℚ) ≤ 0.95 := by norm_num
    have h4 : (0 : ℚ) ≤ 0.1 := by norm_num
    exact ⟨by linarith, by linarith⟩
  cases hp : w.presign with
  | some f =>
    have hev : progVals (attemptStep key n attempt w).2 =
        (0 : ℚ) :: progVals (handleFailure key attempt f).2 := by
      simp [attemptStep, hp, hpre, progVals_append, progVals]
    rw [hev]
    have hh := progVals_handleFailure key attempt f
    refine ⟨?_, by simp, ?_⟩
    · rcases hh with h | h <;> rw [h]
      · exact List.chain'_singleton _
      · rw [List.chain'_cons]
        exact ⟨Or.inr rfl, List.chain'_singleton _⟩
    · intro v hv
      rcases List.mem_cons.mp hv with hv0 | hvh
      · subst hv0; norm_num
      · rcases hh with h | h <;> rw [h] at hvh <;> simp at hvh
        subst hvh; norm_num
  | none =>
    cases hall : w.pages.all PageResult.ok with
    | false =>
      have hev : progVals (attemptStep key n attempt w).2 =
          (0 : ℚ) :: progVals (pageProgressUpdates pre n S) := by
        simp [attemptStep, hp, hall, hpre, hSdef, progVals_append, progVals]
      rw [hev]
      refine ⟨?_, by simp, ?_⟩
      · rw [List.chain'_cons']
        exact ⟨fun h hh => Or.inl (hpmem h (head?_mem hh)).1,
          hpchain.imp (fun _ _ h => Or.inl h)⟩
      · intro v hv
        rcases List.mem_cons.mp hv with hv0 | hvp
        · subst hv0; norm_num
        · exact hpmem v hvp
    | true =>
      cases hfz : w.finalize with
      | none =>
        have hev : progVals (attemptStep key n attempt w).2 =
            (0 : ℚ) :: (progVals (pageProgressUpdates pre n S) ++
              ((0.95 : ℚ) :: ([] : List ℚ))) := by
          simp [attemptStep, hp, hall, hfz, hpre, hSdef, progVals_append, progVals]
        rw [hev]
        refine ⟨chain_block_full _ _ hpchain hpmem (Or.inl rfl), by simp, ?_⟩
        intro v hv
        simp only [List.mem_cons, List.mem_append] at hv
        rcases hv with hv0 | hvp | hvr
        · subst hv0; norm_num
        · exact hpmem v hvp
        · rcases hvr with hv9 | hvn
          · subst hv9; norm_num
          · simp at hvn
      | some f =>
        have hrest := progVals_handleFailure key attempt f
        have hev : progVals (attemptStep key n attempt w).2 =
            (0 : ℚ) :: (progVals (pageProgressUpdates pre n S) ++
              ((0.95 : ℚ) :: progVals (handleFailure key attempt f).2)) := by
          simp [attemptStep, hp, hall, hfz, hpre, hSdef, progVals_append, progVals]
        rw [hev]
        refine ⟨chain_block_full _ _ hpchain hpmem hrest, by simp, ?_⟩
        intro v hv
        simp only [List.mem_cons, List.mem_append] at hv
        rcases hv with hv0 | hvp | hvr
        · subst hv0; norm_num
        · exact hpmem v hvp
        · rcases hvr with hv9 | hvn
          · subst hv9; norm_num
          · rcases hrest with h | h <;> rw [h] at hvn <;> simp at hvn
            subst hvn; norm_num

/-- Progress values of the whole retry loop: a valid chain, starting with 0
(or empty), every value within [0, 0.95]. -/
theorem go_vals (key : String) (n : Nat) (script : Nat → AttemptWorld)
    (hn : 0 < n) (hlen : ∀ a, (script a).pages.length ≤ n) :
    ∀ fuel attempt,
      List.Chain' progR (progVals (uploadGo key n script fuel attempt).2) ∧
      ((progVals (uploadGo key n script fuel attempt).2).head? = some 0 ∨
        progVals (uploadGo key n script fuel attempt).2 = []) ∧
      ∀ v ∈ progVals (uploadGo key n script fuel attempt).2, 0 ≤ v ∧ v ≤ (0.95 : ℚ) := by
  intro fuel
  induction fuel with
  | zero =>
    intro attempt
    refine ⟨by simp [uploadGo, progVals], Or.inr (by simp [uploadGo, progVals]), ?_⟩
    simp [uploadGo, progVals]
  | succ fuel ih =>
    intro attempt
    rw [uploadGo_eq_succ]
    obtain ⟨ha, hh, hb⟩ := attempt_vals key n attempt (script attempt) hn (hlen attempt)
    cases hstep : (attemptStep key n attempt (script attempt)).1 with
    | some r =>
      simp only [uploadLoopStep, hstep]
      exact ⟨ha, Or.inl hh, hb⟩
    | none =>
      simp only [uploadLoopStep, hstep]
      obtain ⟨ga, gh, gb⟩ := ih (attempt + 1)
      rw [progVals_append]
      refine ⟨?_, ?_, ?_⟩
      · exact chain_progR_append _ _ ha ga (by
          rcases gh with h | h
          · exact Or.inl h
          · exact Or.inr h)
      · left
        cases hcs : progVals (attemptStep key n attempt (script attempt)).2 with
        | nil => rw [hcs] at hh; simp at hh
        | cons a t =>
          rw [hcs] at hh
          simp only [List.head?_cons, Option.some.injEq] at hh
          subst hh
          simp
      · intro v hv
        rcases List.mem_append.mp hv with hv | hv
        · exact hb v hv
        · exact gb v hv

/-- Claim C3 (amended): across a chapter run the recorded progress forms a
chain in which every step either does not decrease or is a reset to 0 (the
resets occur exactly at retries), the final recorded value is exactly 1.0
(the terminal pin), and no earlier recorded value is 1.0 or more — so
progress reaches 1.0 exactly at the terminal outcome, but the sequence as a
whole is not monotonically non-decreasing when a retry occurs. -/
theorem claim_C3 (key : String) (n : Nat) (script : Nat → AttemptWorld)
    (hn : 0 < n) (hlen : ∀ a, (script a).pages.length ≤ n) :
    List.Chain' progR (progVals (chapterRunEvents key n script)) ∧
    (progVals (chapterRunEvents key n script)).getLast? = some 1 ∧
    ∀ v ∈ (progVals (chapterRunEvents key n script)).dropLast, v < 1 := by
  obtain ⟨ga, _, gb⟩ := go_vals key n script hn hlen MAX_RETRIES 0
  have hvals : progVals (chapterRunEvents key n script) =
      progVals (uploadGo key n script MAX_RETRIES 0).2 ++ [1] := by
    rw [chapterRunEvents, progVals_append]
    simp [progVals, finalUpdate, upload_chapter]
  rw [hvals]
  refine ⟨?_, ?_, ?_⟩
  · apply ga.append (List.chain'_singleton 1)
    intro x hx y hy
    simp only [List.head?_cons, Option.mem_def, Option.some.injEq] at hy
    subst hy
    left
    have hxb := (gb x (mem_of_getLast? hx)).2
    have : (0.95 : ℚ) ≤ 1 := by norm_num
    linarith
  · exact List.getLast?_concat _
  · rw [List.dropLast_concat]
    intro v hv
    have hvb := (gb v hv).2
    have : (0.95 : ℚ) < 1 := by norm_num
    linarith

/-- Witness for claim C3, applying it to the retry-then-succeed script. -/
theorem claim_C3_witness :
    (List.Chain' progR (progVals (chapterRunEvents "7" 1 cexScriptC3)) ∧
     (progVals (chapterRunEvents "7" 1 cexScriptC3)).getLast? = some 1) ∧
    mkRat 19 20 < 1 :=
  ⟨⟨(claim_C3 "7" 1 cexScriptC3 (by norm_num)
      (fun a => by unfold cexScriptC3; split <;> decide)).1,
    (claim_C3 "7" 1 cexScriptC3 (by norm_num)
      (fun a => by unfold cexScriptC3; split <;> decide)).2.1⟩,
   (claim_C3 "7" 1 cexScriptC3 (by norm_num)
      (fun a => by unfold cexScriptC3; split <;> decide)).2.2 (mkRat 19 20)
     (by decide)⟩

/-! ### The run epilogue -/

/-- Accumulator extraction for the fold underlying `String.join`. -/
theorem string_foldl_append (l : List String) :
    ∀ acc : String, l.foldl (fun a s => a ++ s) acc =
      acc ++ l.foldl (fun a s => a ++ s) "" := by
  induction l with
  | nil => intro acc; simp
  | cons x xs ih =>
    intro acc
    rw [List.foldl_cons, List.foldl_cons, ih ("" ++ x), ih (acc ++ x)]
    simp [String.append_assoc]

/-- Unfolding of `String.join` over a head element. -/
theorem string_join_cons (x : String) (l : List String) :
    String.join (x :: l) = x ++ String.join l := by
  show List.foldl (fun a s => a ++ s) ("" ++ x) l =
    x ++ List.foldl (fun a s => a ++ s) "" l
  rw [string_foldl_append l ("" ++ x)]
  simp

/-- The write loop accumulates exactly the newline-terminated lines. -/
theorem foldl_write_eq (l : List String) :
    ∀ acc : String, l.foldl (fun a k => a ++ k ++ "\n") acc =
      acc ++ String.join (l.map (fun k => k ++ "\n")) := by
  induction l with
  | nil => intro acc; simp [String.join]
  | cons x xs ih =>
    intro acc
    rw [List.foldl_cons, ih, List.map_cons, string_join_cons,
      String.append_assoc acc x "\n",
      String.append_assoc acc (x ++ "\n") (String.join (xs.map (fun k => k ++ "\n")))]

/-- Claim C9: the failed set is persisted as the newline-delimited,
natural-sorted list of its keys, and whether the artifact write succeeds
changes only the write-error report, never the skipped/failed accounting or
the all-success message. -/
theorem claim_C9 (rs : List ChapResult) (total : Nat) (writeOk : Bool) :
    failedFileContent (partitionOutcomes rs).2 =
      String.join ((sortNaturally (partitionOutcomes rs).2).map (fun k => k ++ "\n")) ∧
    (finishRun rs total true).skippedCount = (finishRun rs total writeOk).skippedCount ∧
    (finishRun rs total true).failedCount = (finishRun rs total writeOk).failedCount ∧
    (finishRun rs total true).allSuccessMsg = (finishRun rs total writeOk).allSuccessMsg ∧
    (finishRun rs total writeOk).writeErrorReported =
      (!(partitionOutcomes rs).2.isEmpty && !writeOk) := by
  refine ⟨?_, rfl, rfl, rfl, rfl⟩
  unfold failedFileContent
  rw [foldl_write_eq]
  simp

/-- Witness for claim C4, applying it to the one-retry-then-duplicate
script. -/
theorem claim_C4_witness :
    (upload_chapter "5" 1 witScriptC4).1 = ⟨"5", true, true, ""⟩ ∧
    (upload_chapter "5" 1 witScriptC4).2.filter isSleepEv =
      List.replicate 1 (Ev.sleep RETRY_DELAY) ∧
    partitionOutcomes [(upload_chapter "5" 1 witScriptC4).1] = (["5"], []) :=
  claim_C4 "5" 1 witScriptC4 1 (by decide) (by decide) (by decide)

end Comick
